import Mathlib

/-!
A verification development for the platformer simulation implemented in
`main.js`.  The per-frame simulation loop (input sampling, horizontal
friction and clamping, jumping, gravity, fall-out respawn, platform
collision, coin pickup, win check) is embedded shallowly: JavaScript
numbers are modelled as rationals, the mutable player/game state as
records threaded through pure functions.  The canvas height is a
parameter (it comes from the host page, outside the simulation source);
`world.width` and all level geometry are the fixed constants of
`createLevel`.
-/

set_option maxRecDepth 4000

namespace Platformer

/-- Snapshot of the key-state map `keys`, restricted to the key codes the
update code reads. -/
structure Keys where
  arrowLeft : Bool
  keyA : Bool
  arrowRight : Bool
  keyD : Bool
  arrowUp : Bool
  keyW : Bool
  space : Bool
deriving DecidableEq

/-- Reads `keys['ArrowLeft'] || keys['KeyA']`. -/
def leftHeld (k : Keys) : Bool := k.arrowLeft || k.keyA

/-- Reads `keys['ArrowRight'] || keys['KeyD']`. -/
def rightHeld (k : Keys) : Bool := k.arrowRight || k.keyD

/-- Reads `keys['ArrowUp'] || keys['KeyW'] || keys['Space']`. -/
def jumpHeld (k : Keys) : Bool := k.arrowUp || k.keyW || k.space

/-- The constant `world.width`. -/
def worldWidth : ℚ := 3000

/-- The constant `world.gravity`. -/
def gravity : ℚ := 0.5

/-- A static platform rectangle (`Platform` class: x, y, w, h). -/
structure Platform where
  x : ℚ
  y : ℚ
  w : ℚ
  h : ℚ
deriving DecidableEq

/-- A collectible coin (`Coin` class: x, y, r). -/
structure Coin where
  x : ℚ
  y : ℚ
  r : ℚ
deriving DecidableEq

/-- The player avatar (`Player` class fields). -/
structure Player where
  w : ℚ
  h : ℚ
  x : ℚ
  y : ℚ
  vx : ℚ
  vy : ℚ
  speed : ℚ
  jumpStrength : ℚ
  onGround : Bool
deriving DecidableEq

/-- The `Player` constructor. -/
def Player.init : Player :=
  { w := 40, h := 60, x := 50, y := 0, vx := 0, vy := 0,
    speed := 4, jumpStrength := 12, onGround := false }

/-- Friction: `vx *= 0.8; if (Math.abs(vx) < 0.05) vx = 0`. -/
def frictionStep (vx : ℚ) : ℚ :=
  let v := vx * 0.8
  if |v| < 0.05 then 0 else v

/-- The horizontal-control portion of `Player.update`: left sets
`vx = -speed`, right sets `vx = speed` (each also sets the `moving`
flag), and friction applies only when `moving` stayed false. -/
def horizVel (k : Keys) (vx speed : ℚ) : ℚ :=
  let s1 := if leftHeld k then (-speed, true) else (vx, false)
  let s2 := if rightHeld k then (speed, true) else s1
  if s2.2 then s2.1 else frictionStep s2.1

/-- The horizontal world-edge clamp: `if (x < 0) { x = 0; vx = 0 } else if
(x + w > world.width) { x = world.width - w; vx = 0 }`.  Returns the new
`(x, vx)`. -/
def clampX (x vx w : ℚ) : ℚ × ℚ :=
  if x < 0 then (0, 0)
  else if x + w > worldWidth then (worldWidth - w, 0)
  else (x, vx)

/-- One platform test of the collision loop: resolved when falling
(`vy >= 0`), horizontal extents overlap, the (already moved) bottom edge is
within the 5-unit tolerance above the platform top, and the bottom edge
plus `vy` reaches or passes the platform top; then the player is snapped
onto the platform top, `vy` zeroed, `onGround` set. -/
def collideOne (st : Player) (plat : Platform) : Player :=
  if 0 ≤ st.vy ∧ st.x + st.w > plat.x ∧ st.x < plat.x + plat.w ∧
      st.y + st.h ≤ plat.y + 5 ∧ st.y + st.h + st.vy ≥ plat.y
  then { st with y := plat.y - st.h, vy := 0, onGround := true }
  else st

/-- The part of `Player.update` up to (and including) the respawn check: horizontal
control, applying `vx`, the edge clamp, the jump, gravity, applying `vy`,
and the fall-out respawn (`if (y > canvas.height + 200) respawn()`). -/
def preCollide (k : Keys) (canvasH : ℚ) (p : Player) : Player :=
  let vx1 := horizVel k p.vx p.speed
  let x1 := p.x + vx1
  let cl := clampX x1 vx1 p.w
  let vy1 := if jumpHeld k && p.onGround then -p.jumpStrength else p.vy
  let og1 := if jumpHeld k && p.onGround then false else p.onGround
  let vy2 := vy1 + gravity
  let y2 := p.y + vy2
  if y2 > canvasH + 200 then
    { p with x := 50, y := 0, vx := 0, vy := 0, onGround := og1 }
  else
    { p with x := cl.1, y := y2, vx := cl.2, vy := vy2, onGround := og1 }

/-- The whole `Player.update`: movement/respawn, then `onGround = false`
and the platform collision loop in list order. -/
def Player.update (k : Keys) (canvasH : ℚ) (plats : List Platform) (p : Player) : Player :=
  plats.foldl collideOne { preCollide k canvasH p with onGround := false }

/-- The platform list built by `createLevel` (ground plus eight floating
platforms). -/
def platforms (canvasH : ℚ) : List Platform :=
  [ { x := 0, y := canvasH - 50, w := worldWidth, h := 50 },
    { x := 250, y := canvasH - 120, w := 120, h := 20 },
    { x := 500, y := canvasH - 200, w := 120, h := 20 },
    { x := 800, y := canvasH - 150, w := 120, h := 20 },
    { x := 1100, y := canvasH - 250, w := 150, h := 20 },
    { x := 1500, y := canvasH - 180, w := 160, h := 20 },
    { x := 1850, y := canvasH - 100, w := 100, h := 20 },
    { x := 2100, y := canvasH - 220, w := 180, h := 20 },
    { x := 2500, y := canvasH - 160, w := 120, h := 20 } ]

/-- The eight coins placed by `createLevel` (default radius 10). -/
def coinsInit (canvasH : ℚ) : List Coin :=
  [ { x := 300, y := canvasH - 160, r := 10 },
    { x := 530, y := canvasH - 240, r := 10 },
    { x := 840, y := canvasH - 200, r := 10 },
    { x := 1150, y := canvasH - 300, r := 10 },
    { x := 1520, y := canvasH - 230, r := 10 },
    { x := 1870, y := canvasH - 140, r := 10 },
    { x := 2130, y := canvasH - 260, r := 10 },
    { x := 2530, y := canvasH - 200, r := 10 } ]

/-- The coin-pickup loop of `updateGame`: iterate from the last index down
to 0, splice out every coin whose bounding square overlaps the player's
box (strict inequalities), adding 10 to the score per coin.  Iterating
back-to-front over a spliced array is exactly this right-to-left
recursion. -/
def collectCoins (p : Player) : List Coin → ℚ → List Coin × ℚ
  | [], score => ([], score)
  | c :: rest, score =>
    let r := collectCoins p rest score
    if p.x < c.x + c.r ∧ p.x + p.w > c.x - c.r ∧
        p.y < c.y + c.r ∧ p.y + p.h > c.y - c.r
    then (r.1, r.2 + 10)
    else (c :: r.1, r.2)

/-- The mutable game state touched by `updateGame`. -/
structure GameState where
  player : Player
  coins : List Coin
  score : ℚ
  win : Bool
deriving DecidableEq

/-- The frame function `updateGame`: when `win` is still false, run the player update, the
coin-pickup loop, and the win check (`player.x + player.w > world.width -
50`); when `win` is true, nothing in the simulation state changes. -/
def updateGame (k : Keys) (canvasH : ℚ) (s : GameState) : GameState :=
  if s.win then s
  else
    let p := Player.update k canvasH (platforms canvasH) s.player
    let cs := collectCoins p s.coins s.score
    { player := p, coins := cs.1, score := cs.2,
      win := if p.x + p.w > worldWidth - 50 then true else s.win }

/-- The initial game state: freshly constructed player, full coin list,
`score = 0`, `win = false`. -/
def initState (canvasH : ℚ) : GameState :=
  { player := Player.init, coins := coinsInit canvasH, score := 0, win := false }

/-- A run of the game loop: one `updateGame` per frame, fed by the frame's
key snapshot. -/
def run (inputs : List Keys) (canvasH : ℚ) (s : GameState) : GameState :=
  inputs.foldl (fun t k => updateGame k canvasH t) s

/-- No key held. -/
def keysNone : Keys :=
  { arrowLeft := false, keyA := false, arrowRight := false, keyD := false,
    arrowUp := false, keyW := false, space := false }

/-- Only the space bar held. -/
def keysJump : Keys :=
  { keysNone with space := true }

/-- Both horizontal directions held. -/
def keysBoth : Keys :=
  { keysNone with arrowLeft := true, arrowRight := true }

/-- Only right held. -/
def keysRight : Keys :=
  { keysNone with arrowRight := true }

/-- A player grounded on the ground platform of a 500-pixel-high canvas. -/
def sGround : GameState :=
  { player := { Player.init with y := 390, onGround := true },
    coins := [], score := 0, win := false }

/-- A grounded player whose right edge is already past `world.width - 80`. -/
def sNearEnd : GameState :=
  { player := { Player.init with x := 2920, y := 390, onGround := true },
    coins := [], score := 0, win := false }

/-- A state in which every coin has been collected (`coins = []`,
`score = 80`) while the player is still in mid-world. -/
def sAllCoins : GameState :=
  { player := { Player.init with x := 1000, y := 390, onGround := true },
    coins := [], score := 80, win := false }

/-- A grounded player close enough to the right world edge that one frame
of running right triggers the horizontal clamp. -/
def sNearRight : GameState :=
  { player := { Player.init with x := 2958, y := 390, onGround := true },
    coins := [], score := 0, win := false }

/-- A player one unit below the fall-out threshold of a 500-pixel-high
canvas, but moving sharply upward. -/
def sFallen : GameState :=
  { player := { Player.init with y := 701, vy := -300 },
    coins := [], score := 0, win := false }

/-- A player resting far below the fall-out threshold with no vertical
velocity. -/
def sHighFall : GameState :=
  { player := { Player.init with y := 800 }, coins := [], score := 0, win := false }

/-- An already-won state. -/
def sWon : GameState :=
  { player := Player.init, coins := [], score := 30, win := true }

/-- A falling player whose bottom edge is within the 5-unit tolerance of
the ground top at the start of the frame but beyond it after the frame's
vertical movement. -/
def pTolerance : Player :=
  { w := 40, h := 60, x := 50, y := 390, vx := 0, vy := 9.5,
    speed := 4, jumpStrength := 12, onGround := false }

/-- Modelled from the amended claim for the collision rule: the tolerance
test reads the bottom edge after `vy` has been applied to `y`, and the
projection test adds `vy` once more on top of the already-moved bottom
edge; a match snaps the bottom onto the platform top, zeroes `vy` and sets
`onGround`. -/
def collideSpec (st : Player) (plat : Platform) : Player :=
  if 0 ≤ st.vy ∧ plat.x < st.x + st.w ∧ st.x < plat.x + plat.w ∧
      st.y + st.h ≤ plat.y + 5 ∧ plat.y ≤ st.y + st.h + st.vy
  then { st with y := plat.y - st.h, vy := 0, onGround := true }
  else st

/-- Modelled from the amended claim for horizontal control: friction is
applied exactly when neither direction is held; when both are held the
later-evaluated direction wins, so right overrides left. -/
def horizSpec (k : Keys) (vx speed : ℚ) : ℚ :=
  if rightHeld k then speed
  else if leftHeld k then -speed
  else frictionStep vx

/-- A fold whose step fixes the seed leaves the seed unchanged. -/
theorem foldl_fixed {α β : Type} (f : α → β → α) (b : α) :
    ∀ l : List β, (∀ a ∈ l, f b a = b) → l.foldl f b = b := by
  intro l
  induction l with
  | nil => intro; rfl
  | cons a t ih =>
    intro h
    simp only [List.foldl_cons, h a (List.mem_cons_self a t)]
    exact ih fun x hx => h x (List.mem_cons_of_mem a hx)

/-- A single platform test never changes the horizontal data nor the
player's size (only `y`, `vy`, `onGround`). -/
theorem collideOne_keeps (st : Player) (plat : Platform) :
    (collideOne st plat).x = st.x ∧ (collideOne st plat).vx = st.vx ∧
      (collideOne st plat).w = st.w ∧ (collideOne st plat).h = st.h := by
  unfold collideOne
  split <;> simp

/-- The collision loop never changes the horizontal data nor the player's
size. -/
theorem collideFold_keeps (plats : List Platform) :
    ∀ st : Player,
      (plats.foldl collideOne st).x = st.x ∧ (plats.foldl collideOne st).vx = st.vx ∧
        (plats.foldl collideOne st).w = st.w ∧ (plats.foldl collideOne st).h = st.h := by
  induction plats with
  | nil => intro st; exact ⟨rfl, rfl, rfl, rfl⟩
  | cons a t ih =>
    intro st
    obtain ⟨h1, h2, h3, h4⟩ := collideOne_keeps st a
    obtain ⟨g1, g2, g3, g4⟩ := ih (collideOne st a)
    exact ⟨g1.trans h1, g2.trans h2, g3.trans h3, g4.trans h4⟩

/-- While the player moves upward the collision loop does nothing. -/
theorem collideFold_vyNeg (plats : List Platform) :
    ∀ st : Player, st.vy < 0 → plats.foldl collideOne st = st := by
  induction plats with
  | nil => intro st _; rfl
  | cons a t ih =>
    intro st h
    have ha : collideOne st a = st := by
      unfold collideOne
      rw [if_neg]
      rintro ⟨h0, -⟩
      exact absurd h (not_lt.mpr h0)
    simp only [List.foldl_cons, ha]
    exact ih st h

/-- One platform test either leaves the state alone or produces a state
resting exactly on that platform's top with `vy = 0`. -/
theorem collideOne_ground (st : Player) (plat : Platform) :
    ((collideOne st plat).onGround = true → st.onGround = true ∧ collideOne st plat = st) ∨
      ((collideOne st plat).vy = 0 ∧
        (collideOne st plat).y + (collideOne st plat).h = plat.y) := by
  unfold collideOne
  split
  · right
    refine ⟨rfl, ?_⟩
    show plat.y - st.h + st.h = plat.y
    ring
  · left
    intro h
    exact ⟨h, rfl⟩

/-- Invariant of the collision loop: a grounded result rests exactly on
the top of some platform of the ambient list, with `vy = 0`. -/
theorem collideFold_ground (L : List Platform) :
    ∀ (plats : List Platform) (st : Player),
      (∀ plat ∈ plats, plat ∈ L) →
      (st.onGround = true → st.vy = 0 ∧ ∃ q ∈ L, st.y + st.h = q.y) →
      (plats.foldl collideOne st).onGround = true →
      (plats.foldl collideOne st).vy = 0 ∧
        ∃ q ∈ L, (plats.foldl collideOne st).y + (plats.foldl collideOne st).h = q.y := by
  intro plats
  induction plats with
  | nil => intro st _ hst h; exact hst h
  | cons a t ih =>
    intro st hsub hst
    simp only [List.foldl_cons]
    refine ih (collideOne st a) (fun plat hp => hsub plat (List.mem_cons_of_mem a hp)) ?_
    intro hg
    rcases collideOne_ground st a with hL | ⟨hvy, hy⟩
    · obtain ⟨hso, heq⟩ := hL hg
      rw [heq]
      exact hst hso
    · exact ⟨hvy, a, hsub a (List.mem_cons_self a t), hy⟩

/-- The coin scan adds 10 points per removed coin: score plus ten times
the remaining-coin count is preserved. -/
theorem collectCoins_score (p : Player) :
    ∀ (cs : List Coin) (sc : ℚ),
      (collectCoins p cs sc).2 + 10 * ((collectCoins p cs sc).1.length : ℚ)
        = sc + 10 * (cs.length : ℚ) := by
  intro cs
  induction cs with
  | nil => intro sc; simp [collectCoins]
  | cons c t ih =>
    intro sc
    have h := ih sc
    simp only [collectCoins]
    split
    · simp only [List.length_cons]
      push_cast
      push_cast at h
      linarith
    · simp only [List.length_cons]
      push_cast
      push_cast at h
      linarith

/-- The coin scan never decreases the score. -/
theorem collectCoins_mono (p : Player) :
    ∀ (cs : List Coin) (sc : ℚ), sc ≤ (collectCoins p cs sc).2 := by
  intro cs
  induction cs with
  | nil => intro sc; simp [collectCoins]
  | cons c t ih =>
    intro sc
    have h := ih sc
    simp only [collectCoins]
    split
    · simp only []
      linarith
    · exact h

/-- The coin scan only removes coins, never adds or reorders them. -/
theorem collectCoins_sub (p : Player) :
    ∀ (cs : List Coin) (sc : ℚ), (collectCoins p cs sc).1.Sublist cs := by
  intro cs
  induction cs with
  | nil => intro sc; simp [collectCoins]
  | cons c t ih =>
    intro sc
    simp only [collectCoins]
    split
    · exact (ih sc).trans (List.sublist_cons_self c t)
    · exact (ih sc).cons₂ c

/-- When `win` is already true `updateGame` is the identity. -/
theorem stepFixed (k : Keys) (H : ℚ) (s : GameState) (h : s.win = true) :
    updateGame k H s = s := by
  simp [updateGame, h]

/-- One frame preserves score-plus-coins accounting, never decreases the
score, and only removes coins. -/
theorem updateGame_score (k : Keys) (H : ℚ) (s : GameState) :
    (updateGame k H s).score + 10 * ((updateGame k H s).coins.length : ℚ)
        = s.score + 10 * (s.coins.length : ℚ) ∧
      s.score ≤ (updateGame k H s).score ∧
      (updateGame k H s).coins.Sublist s.coins := by
  by_cases h : s.win = true
  · rw [stepFixed k H s h]
    exact ⟨rfl, le_refl _, List.Sublist.refl _⟩
  · have hw : s.win = false := by
      cases hv : s.win
      · rfl
      · exact absurd hv h
    simp only [updateGame, hw, Bool.false_eq_true, if_false]
    exact ⟨collectCoins_score _ _ _, collectCoins_mono _ _ _, collectCoins_sub _ _ _⟩

/-- Along any run: score-plus-coins accounting is preserved, score never
decreases, coins are only removed. -/
theorem run_inv (H : ℚ) :
    ∀ (inputs : List Keys) (s : GameState),
      (run inputs H s).score + 10 * ((run inputs H s).coins.length : ℚ)
          = s.score + 10 * (s.coins.length : ℚ) ∧
        s.score ≤ (run inputs H s).score ∧
        (run inputs H s).coins.Sublist s.coins := by
  intro inputs
  induction inputs with
  | nil => intro s; exact ⟨rfl, le_refl _, List.Sublist.refl _⟩
  | cons a t ih =>
    intro s
    obtain ⟨h1, h2, h3⟩ := updateGame_score a H s
    obtain ⟨g1, g2, g3⟩ := ih (updateGame a H s)
    refine ⟨?_, le_trans h2 ?_, ?_⟩
    · show (run t H (updateGame a H s)).score +
        10 * ((run t H (updateGame a H s)).coins.length : ℚ) = _
      linarith
    · exact g2
    · exact g3.trans h3

/-- A won state stays won along any run. -/
theorem run_win_persists (H : ℚ) :
    ∀ (inputs : List Keys) (s : GameState),
      s.win = true → (run inputs H s).win = true := by
  intro inputs
  induction inputs with
  | nil => intro s h; exact h
  | cons a t ih =>
    intro s h
    show (run t H (updateGame a H s)).win = true
    rw [stepFixed a H s h]
    exact ih s h

/-- The collision loop does not touch the horizontal data computed by the
move/respawn phase. -/
theorem update_fields (k : Keys) (H : ℚ) (plats : List Platform) (p : Player) :
    (Player.update k H plats p).x = (preCollide k H p).x ∧
      (Player.update k H plats p).vx = (preCollide k H p).vx ∧
      (Player.update k H plats p).w = (preCollide k H p).w := by
  obtain ⟨kx, kvx, kw, -⟩ :=
    collideFold_keeps plats { preCollide k H p with onGround := false }
  exact ⟨kx, kvx, kw⟩

/-- The move/respawn phase ends with either the spawn x and zero vx, or
with the clamped position/velocity pair. -/
theorem preCollide_xvx (k : Keys) (H : ℚ) (p : Player) :
    ((preCollide k H p).x = 50 ∧ (preCollide k H p).vx = 0) ∨
      ((preCollide k H p).x =
          (clampX (p.x + horizVel k p.vx p.speed) (horizVel k p.vx p.speed) p.w).1 ∧
        (preCollide k H p).vx =
          (clampX (p.x + horizVel k p.vx p.speed) (horizVel k p.vx p.speed) p.w).2) := by
  simp only [preCollide]
  split <;> split <;>
    first
      | exact Or.inl ⟨rfl, rfl⟩
      | exact Or.inr ⟨rfl, rfl⟩

/-- The move/respawn phase keeps the player's width. -/
theorem preCollide_w (k : Keys) (H : ℚ) (p : Player) : (preCollide k H p).w = p.w := by
  simp only [preCollide]
  split <;> split <;> rfl

/-- The clamp keeps x inside `[0, 3000 - w]` and zeroes vx whenever the
unclamped x would leave that interval. -/
theorem clampX_cases (x vx w : ℚ) (hw : w ≤ 3000) :
    (0 ≤ (clampX x vx w).1 ∧ (clampX x vx w).1 ≤ 3000 - w) ∧
      ((x < 0 ∨ x + w > 3000) → (clampX x vx w).2 = 0) := by
  unfold clampX worldWidth
  split_ifs with h1 h2 <;> dsimp only
  · exact ⟨⟨le_refl 0, by linarith⟩, fun _ => rfl⟩
  · exact ⟨⟨by linarith, le_refl _⟩, fun _ => rfl⟩
  · push_neg at h1 h2
    refine ⟨⟨h1, by linarith⟩, fun h => ?_⟩
    rcases h with h | h <;> linarith

/-- Claim C1: in a frame starting with `win = false`, the step sets `win`
to true exactly when the updated player's right edge `x + w` exceeds
`world.width - 50`; and once `win` is true no later frame ever clears
it. -/
theorem win_trigger (k : Keys) (H : ℚ) (s : GameState) :
    (s.win = false →
      ((updateGame k H s).win = true ↔
        (Player.update k H (platforms H) s.player).x +
          (Player.update k H (platforms H) s.player).w > worldWidth - 50)) ∧
    (∀ inputs : List Keys, s.win = true → (run inputs H s).win = true) := by
  constructor
  · intro hwin
    simp only [updateGame, hwin, Bool.false_eq_true, if_false]
    split <;> simp_all
  · intro inputs h
    exact run_win_persists H inputs s h

/-- Witness for C1: a grounded player with right edge at 2960 > 2950 wins
in one frame. -/
theorem win_trigger_witness : (updateGame keysNone 500 sNearEnd).win = true :=
  ((win_trigger keysNone 500 sNearEnd).1 rfl).mpr (by
    norm_num [Player.update, preCollide, horizVel, frictionStep, clampX, collideOne,
      platforms, gravity, worldWidth, keysNone, Player.init, sNearEnd,
      leftHeld, rightHeld, jumpHeld, List.foldl])

/-- Claim C2 (code bug): in a state where all 8 coins have already been
collected but the player's right edge is mid-world, one simulation step
leaves `win = false` — `updateGame` has no all-coins win check, its only
win condition is `player.x + player.w > world.width - 50`, contradicting
the file's own header comment ("When you collect all coins or reach the
end, a win message appears"). -/
theorem allCoins_collected_no_win :
    sAllCoins.coins = [] ∧ sAllCoins.win = false ∧ sAllCoins.score = 80 ∧
    (updateGame keysNone 500 sAllCoins).win = false ∧
    (updateGame keysNone 500 sAllCoins).score = 80 := by
  refine ⟨rfl, rfl, rfl, ?_, ?_⟩ <;>
    norm_num [updateGame, Player.update, preCollide, horizVel, frictionStep, clampX,
      collideOne, platforms, collectCoins, gravity, worldWidth, keysNone, Player.init,
      sAllCoins, leftHeld, rightHeld, jumpHeld, List.foldl]

/-- Claim C6: a frame that starts with `win = true` leaves the whole
gameplay state — player pose, velocities, `onGround`, coins, score and
`win` — unchanged. -/
theorem win_freezes (k : Keys) (H : ℚ) (s : GameState) (h : s.win = true) :
    updateGame k H s = s :=
  stepFixed k H s h

/-- Witness for C6: one concrete frozen state. -/
theorem win_freezes_witness : updateGame keysNone 500 sWon = sWon :=
  win_freezes keysNone 500 sWon rfl

/-- Claim C9 counterexample: with both directions held and `vx = 0`,
friction is NOT applied — the horizontal-control step returns `vx = speed
= 4` (the `moving` flag is set by both branches), while friction applied
to the incoming `vx = 0` would return 0; right does override left, but no
friction happens. -/
theorem both_held_cex :
    leftHeld keysBoth = true ∧ rightHeld keysBoth = true ∧
    horizVel keysBoth 0 4 = 4 ∧ frictionStep 0 = 0 ∧ (4 : ℚ) ≠ 0 ∧
    (updateGame keysBoth 500 sGround).player.vx = 4 := by
  refine ⟨rfl, rfl, ?_, ?_, by norm_num, ?_⟩ <;>
    norm_num [updateGame, Player.update, preCollide, horizVel, frictionStep, clampX,
      collideOne, platforms, collectCoins, gravity, worldWidth, keysBoth, keysNone,
      Player.init, sGround, leftHeld, rightHeld, jumpHeld, List.foldl]

/-- Claim C9 amended: friction (multiply `vx` by 0.8, snap to 0 below
0.05) is applied exactly when neither direction is held; when both are
held the later-evaluated direction wins, so right overrides left and
`vx = speed` with no friction. -/
theorem horiz_control_amended :
    ∀ (k : Keys) (vx speed : ℚ), horizVel k vx speed = horizSpec k vx speed := by
  intro k vx speed
  unfold horizVel horizSpec
  cases hl : leftHeld k <;> cases hr : rightHeld k <;> simp [hl, hr]

/-- Claim C4 counterexample: for `pTolerance` (frame-start bottom edge
exactly at the ground top 450, post-gravity `vy = 10`), the claim's
condition — tolerance test on the bottom edge BEFORE `vy` is applied to
`y`, projection test after one application — holds for the ground
platform (450 ≤ 455 and 460 ≥ 450), yet the frame resolves no collision:
the code tests the already-moved bottom edge (460 > 455), so the player
falls through with `onGround = false`, `y = 400`, `vy = 10`. -/
theorem collision_tolerance_cex :
    ({ x := 0, y := 450, w := 3000, h := 50 } : Platform) ∈ platforms 500 ∧
    0 ≤ pTolerance.vy + gravity ∧
    pTolerance.x + pTolerance.w > 0 ∧ pTolerance.x < 0 + 3000 ∧
    pTolerance.y + pTolerance.h ≤ 450 + 5 ∧
    pTolerance.y + pTolerance.h + (pTolerance.vy + gravity) ≥ 450 ∧
    (Player.update keysNone 500 (platforms 500) pTolerance).onGround = false ∧
    (Player.update keysNone 500 (platforms 500) pTolerance).y = 400 ∧
    (Player.update keysNone 500 (platforms 500) pTolerance).vy = 10 := by
  refine ⟨by norm_num [platforms, worldWidth], ?_, ?_, ?_, ?_, ?_, ?_, ?_, ?_⟩ <;>
    norm_num [Player.update, preCollide, horizVel, frictionStep, clampX, collideOne,
      platforms, gravity, worldWidth, keysNone, pTolerance,
      leftHeld, rightHeld, jumpHeld, List.foldl]

/-- Claim C4 amended: a platform collision is resolved exactly when
`vy ≥ 0`, the horizontal extents overlap, the bottom edge AFTER `vy` has
been applied to `y` is at or above the platform top plus the 5-unit
tolerance, and that moved bottom edge plus `vy` (a second application in
the projection) reaches or passes the platform top; on a match the bottom
is snapped onto the platform top, `vy` is zeroed and `onGround` set; the
loop runs in list order on the current state.  `collideSpec` transcribes
this amended rule and coincides with the source's per-platform step, and
`Player.update` is exactly the fold of that rule over the platforms after
the move/respawn phase with `onGround` reset. -/
theorem collision_amended :
    (∀ (st : Player) (plat : Platform), collideOne st plat = collideSpec st plat) ∧
    (∀ (k : Keys) (H : ℚ) (plats : List Platform) (p : Player),
      Player.update k H plats p =
        plats.foldl collideSpec { preCollide k H p with onGround := false }) := by
  have hfun : ∀ (st : Player) (plat : Platform), collideOne st plat = collideSpec st plat :=
    fun st plat => rfl
  refine ⟨hfun, fun k H plats p => ?_⟩
  unfold Player.update
  rw [show collideOne = collideSpec from funext fun st => funext fun plat => hfun st plat]

/-- Claim C10: whenever the player update ends with `onGround = true`, the
final `vy` is 0 and the player's bottom edge rests exactly on the top of
some platform of the list; since the loop starts from `onGround = false`,
`onGround` can only be true when some platform test matched. -/
theorem onGround_rests_on_platform (k : Keys) (H : ℚ) (plats : List Platform) (p : Player)
    (hg : (Player.update k H plats p).onGround = true) :
    (Player.update k H plats p).vy = 0 ∧
    ∃ plat ∈ plats,
      (Player.update k H plats p).y + (Player.update k H plats p).h = plat.y := by
  unfold Player.update at hg ⊢
  exact collideFold_ground plats plats _ (fun _ hp => hp) (by intro h; simp at h) hg

/-- Witness for C10: a grounded player stays grounded in one quiet frame
and indeed rests on a platform top with `vy = 0`. -/
theorem onGround_rests_witness :
    (Player.update keysNone 500 (platforms 500) sGround.player).vy = 0 ∧
    ∃ plat ∈ platforms 500,
      (Player.update keysNone 500 (platforms 500) sGround.player).y +
        (Player.update keysNone 500 (platforms 500) sGround.player).h = plat.y :=
  onGround_rests_on_platform keysNone 500 (platforms 500) sGround.player (by
    norm_num [Player.update, preCollide, horizVel, frictionStep, clampX, collideOne,
      platforms, gravity, worldWidth, keysNone, Player.init, sGround,
      leftHeld, rightHeld, jumpHeld, List.foldl])

/-- Claim C5: the score never decreases across any frame or any run;
coins are only ever removed (so each of the 8 coins contributes its 10
points at most once); and along any run from the initial state the score
plus 10 per remaining coin is exactly 80 — in particular a run that
collects all 8 coins ends with score exactly 80. -/
theorem score_props (H : ℚ) :
    (∀ (k : Keys) (s : GameState), s.score ≤ (updateGame k H s).score) ∧
    (∀ (inputs : List Keys) (s : GameState), s.score ≤ (run inputs H s).score) ∧
    (∀ inputs : List Keys,
      (run inputs H (initState H)).coins.Sublist (coinsInit H) ∧
      (run inputs H (initState H)).score +
        10 * ((run inputs H (initState H)).coins.length : ℚ) = 80) := by
  refine ⟨fun k s => (updateGame_score k H s).2.1,
    fun inputs s => (run_inv H inputs s).2.1, fun inputs => ?_⟩
  obtain ⟨h1, -, h3⟩ := run_inv H inputs (initState H)
  refine ⟨h3, ?_⟩
  have hsc : (initState H).score = 0 := rfl
  have hlen : (((initState H).coins.length : ℕ) : ℚ) = 8 := by
    norm_num [initState, coinsInit]
  rw [hsc, hlen] at h1
  linarith

/-- Claim C8 counterexample: jumping from a grounded state with jump held
does NOT end the frame with `vy = -jumpStrength`: gravity is added after
the jump sets `vy = -12`, so the frame's output is `vy = -11.5` (and the
upward motion skips the collision loop, so nothing restores it). -/
theorem jump_vy_cex :
    jumpHeld keysJump = true ∧ sGround.player.onGround = true ∧ sGround.win = false ∧
    -sGround.player.jumpStrength = -12 ∧
    (updateGame keysJump 500 sGround).player.vy = -11.5 ∧
    (-11.5 : ℚ) ≠ -12 := by
  refine ⟨rfl, rfl, rfl, ?_, ?_, by norm_num⟩ <;>
    norm_num [updateGame, Player.update, preCollide, horizVel, frictionStep, clampX,
      collideOne, platforms, collectCoins, gravity, worldWidth, keysJump, keysNone,
      Player.init, sGround, leftHeld, rightHeld, jumpHeld, List.foldl]

/-- Claim C8 amended: a frame with jump held from a grounded state (and no
fall-out respawn in that frame) ends with `vy = -jumpStrength + gravity`
(the jump assignment followed by the frame's gravity) and
`onGround = false`. -/
theorem jump_amended (k : Keys) (H : ℚ) (s : GameState)
    (hwin : s.win = false) (hj : jumpHeld k = true) (hg : s.player.onGround = true)
    (hjs : gravity < s.player.jumpStrength)
    (hy : s.player.y + (-s.player.jumpStrength + gravity) ≤ H + 200) :
    (updateGame k H s).player.vy = -s.player.jumpStrength + gravity ∧
    (updateGame k H s).player.onGround = false := by
  have hp : (updateGame k H s).player = Player.update k H (platforms H) s.player := by
    simp [updateGame, hwin]
  have hpre : preCollide k H s.player =
      { s.player with
        x := (clampX (s.player.x + horizVel k s.player.vx s.player.speed)
          (horizVel k s.player.vx s.player.speed) s.player.w).1,
        y := s.player.y + (-s.player.jumpStrength + gravity),
        vx := (clampX (s.player.x + horizVel k s.player.vx s.player.speed)
          (horizVel k s.player.vx s.player.speed) s.player.w).2,
        vy := -s.player.jumpStrength + gravity,
        onGround := false } := by
    simp only [preCollide, hj, hg, Bool.and_self, eq_self_iff_true, if_true]
    rw [if_neg (not_lt.mpr hy)]
  rw [hp]
  unfold Player.update
  have hvy : ({ preCollide k H s.player with onGround := false } : Player).vy
      = -s.player.jumpStrength + gravity := by
    rw [hpre]
  have hneg : ({ preCollide k H s.player with onGround := false } : Player).vy < 0 := by
    rw [hvy]
    have hgr : gravity = 1 / 2 := by norm_num [gravity]
    rw [hgr] at hjs ⊢
    linarith
  rw [collideFold_vyNeg (platforms H) _ hneg]
  exact ⟨hvy, rfl⟩

/-- Witness for C8 amended: the concrete grounded jump frame ends with
`vy = -12 + 0.5` and `onGround = false`. -/
theorem jump_amended_witness :
    (updateGame keysJump 500 sGround).player.vy =
      -sGround.player.jumpStrength + gravity ∧
    (updateGame keysJump 500 sGround).player.onGround = false :=
  jump_amended keysJump 500 sGround rfl rfl rfl
    (by norm_num [gravity, sGround, Player.init])
    (by norm_num [sGround, Player.init, gravity])

/-- Claim C7 counterexample: `sFallen` starts the frame with `player.y =
701 > canvas.height + 200 = 700`, yet one step does not respawn: the
respawn test runs only after gravity and the vertical move, and the large
upward velocity (`vy = -300`) brings the post-move `y` to 401.5, below
the threshold, so the frame ends at `y = 401.5`, `vy = -299.5` instead of
the spawn point. -/
theorem respawn_cex :
    sFallen.player.y > 500 + 200 ∧ sFallen.win = false ∧
    (updateGame keysNone 500 sFallen).player.y = 401.5 ∧
    (updateGame keysNone 500 sFallen).player.vy = -299.5 ∧
    (updateGame keysNone 500 sFallen).player.y ≠ 0 ∧
    (updateGame keysNone 500 sFallen).player.vy ≠ 0 := by
  refine ⟨by norm_num [sFallen, Player.init], rfl, ?_, ?_, ?_, ?_⟩ <;>
    norm_num [updateGame, Player.update, preCollide, horizVel, frictionStep, clampX,
      collideOne, platforms, collectCoins, gravity, worldWidth, keysNone,
      Player.init, sFallen, leftHeld, rightHeld, jumpHeld, List.foldl]

/-- Claim C7 amended: in a frame with `win = false` in which the player's
`y` AFTER the frame's jump, gravity and vertical move exceeds
`canvas.height + 200`, the step resets the player to the spawn point
`x = 50`, `y = 0` with `vx = vy = 0` (for the game's player size 40×60
and any canvas taller than 110, so the respawned player does not
immediately snap onto a platform). -/
theorem respawn_amended (k : Keys) (H : ℚ) (s : GameState)
    (hwin : s.win = false) (hH : 110 < H)
    (hw : s.player.w = 40) (hh : s.player.h = 60)
    (hy : s.player.y +
        ((if jumpHeld k && s.player.onGround then -s.player.jumpStrength
          else s.player.vy) + gravity) > H + 200) :
    (updateGame k H s).player.x = 50 ∧ (updateGame k H s).player.y = 0 ∧
    (updateGame k H s).player.vx = 0 ∧ (updateGame k H s).player.vy = 0 := by
  have hp : (updateGame k H s).player = Player.update k H (platforms H) s.player := by
    simp [updateGame, hwin]
  have hpre : preCollide k H s.player =
      { s.player with
        x := 50, y := 0, vx := 0, vy := 0,
        onGround := (if jumpHeld k && s.player.onGround then false
          else s.player.onGround) } := by
    simp only [preCollide]
    rw [if_pos hy]
  have hst : ({ preCollide k H s.player with onGround := false } : Player)
      = { s.player with x := 50, y := 0, vx := 0, vy := 0, onGround := false } := by
    rw [hpre]
  rw [hp]
  unfold Player.update
  rw [hst, foldl_fixed]
  · exact ⟨rfl, rfl, rfl, rfl⟩
  · intro plat hplat
    simp only [platforms, List.mem_cons, List.not_mem_nil, or_false] at hplat
    unfold collideOne
    rcases hplat with rfl | rfl | rfl | rfl | rfl | rfl | rfl | rfl | rfl <;>
      (refine if_neg ?_
       rintro ⟨-, h2, -, h4, h5⟩
       norm_num [hw, hh] at h2 h4 h5)
    linarith

/-- Witness for C7 amended: a player resting at `y = 800` on a
500-pixel-high canvas is reset to the spawn point in one frame. -/
theorem respawn_amended_witness :
    (updateGame keysNone 500 sHighFall).player.x = 50 ∧
    (updateGame keysNone 500 sHighFall).player.y = 0 ∧
    (updateGame keysNone 500 sHighFall).player.vx = 0 ∧
    (updateGame keysNone 500 sHighFall).player.vy = 0 :=
  respawn_amended keysNone 500 sHighFall rfl (by norm_num) rfl rfl
    (by norm_num [sHighFall, Player.init, jumpHeld, keysNone, gravity])

/-- Claim C3: in every frame in which the physics run (`win = false`), the
step ends with `0 ≤ player.x ≤ world.width - player.width`, and whenever
the clamp fires (the unclamped `x + vx` would leave that interval) the
frame's resulting `vx` is 0; in a frozen frame (`win = true`) the player
is unchanged, so the invariant carries over.  Stated for any player whose
width fits the world (`0 ≤ w ≤ 2950`, so the respawn x = 50 is also in
range); the game's player has `w = 40`. -/
theorem horizontal_clamp (k : Keys) (H : ℚ) (s : GameState)
    (hw : s.player.w ≤ 2950) :
    (s.win = false →
      (0 ≤ (updateGame k H s).player.x ∧
        (updateGame k H s).player.x ≤ worldWidth - (updateGame k H s).player.w) ∧
      ((s.player.x + horizVel k s.player.vx s.player.speed < 0 ∨
          s.player.x + horizVel k s.player.vx s.player.speed + s.player.w > worldWidth) →
        (updateGame k H s).player.vx = 0)) ∧
    (s.win = true → (updateGame k H s).player = s.player) := by
  constructor
  · intro hwin
    have hp : (updateGame k H s).player = Player.update k H (platforms H) s.player := by
      simp [updateGame, hwin]
    obtain ⟨ux, uvx, uw⟩ := update_fields k H (platforms H) s.player
    rw [hp, ux, uvx, uw, preCollide_w]
    unfold worldWidth
    rcases preCollide_xvx k H s.player with ⟨hx, hvx⟩ | ⟨hx, hvx⟩
    · rw [hx, hvx]
      exact ⟨⟨by norm_num, by linarith⟩, fun _ => rfl⟩
    · rw [hx, hvx]
      have hc := clampX_cases (s.player.x + horizVel k s.player.vx s.player.speed)
        (horizVel k s.player.vx s.player.speed) s.player.w (by linarith)
      exact ⟨⟨hc.1.1, hc.1.2⟩, hc.2⟩
  · intro h
    rw [stepFixed k H s h]

/-- Witness for C3: one frame of running right from x = 2958 fires the
right-edge clamp, ending inside the interval with `vx = 0`. -/
theorem horizontal_clamp_witness :
    (0 ≤ (updateGame keysRight 500 sNearRight).player.x ∧
      (updateGame keysRight 500 sNearRight).player.x ≤
        worldWidth - (updateGame keysRight 500 sNearRight).player.w) ∧
    (updateGame keysRight 500 sNearRight).player.vx = 0 := by
  have h := (horizontal_clamp keysRight 500 sNearRight
    (by norm_num [sNearRight, Player.init])).1 rfl
  refine ⟨h.1, h.2 ?_⟩
  right
  norm_num [sNearRight, Player.init, horizVel, frictionStep, keysRight, keysNone,
    leftHeld, rightHeld, worldWidth]

end Platformer
